import Mathlib

/-!
Verification of the multi-provider LLM trading-signal orchestration engine.

The definitions below are a shallow embedding of the TypeScript sources:
  - `app/utils/providerHealthStore.ts` (circuit breaker),
  - `app/services/llmService.ts` (template renderer and provider adapter,
    the copy that consults the health store),
  - `app/services/_utils_helpers.ts` (`extractTextFromObject`),
  - `app/schemas.ts` (`ParsedSignalSchema`),
  - `app/services/signalService.ts` (aggregation and signal assembly),
  - `src/services/llmService.ts` (the prototype adapter with the regex
    fallback in `createLLMAdapter`).

JavaScript machine numbers are modelled as exact rationals (`ℚ`); all the
concrete values exercised here are exactly representable as binary doubles,
so no rounding behaviour is lost.  Timestamps are integers (`ℤ`).
Asynchronous storage reads/writes are modelled by explicit state passing.
-/

/-! ### Provider health store: `app/utils/providerHealthStore.ts` -/

/-- `CircuitState` from `providerHealthStore.ts`. -/
inductive CircuitState where
  | CLOSED
  | OPEN
  | HALF_OPEN
deriving DecidableEq, Repr

/-- `ProviderHealth` record from `providerHealthStore.ts`. -/
structure ProviderHealth where
  providerId : String
  state : CircuitState
  failureCount : ℕ
  lastAttempt : ℤ
deriving DecidableEq, Repr

/-- `FAILURE_THRESHOLD = 3`. -/
def FAILURE_THRESHOLD : ℕ := 3

/-- `OPEN_TIMEOUT_MS = 60 * 1000`. -/
def OPEN_TIMEOUT_MS : ℤ := 60 * 1000

/-- `getHealthStatus` from `providerHealthStore.ts`.  `stored` is the record
currently held by `AsyncStorage` for this provider (`none` if absent), `now`
is `Date.now()` at the time of the read. -/
def getHealthStatus (stored : Option ProviderHealth) (providerId : String) (now : ℤ) :
    ProviderHealth :=
  match stored with
  | some health =>
    if health.state = CircuitState.OPEN ∧ now - health.lastAttempt > OPEN_TIMEOUT_MS then
      { health with state := CircuitState.HALF_OPEN }
    else health
  | none =>
    { providerId := providerId, state := CircuitState.CLOSED, failureCount := 0,
      lastAttempt := now }

/-- A `getHealthStatus` read as a state transformer: it returns the view and the
(unchanged) stored record.  The source function performs no `setItem`, which is
what the identical second component records. -/
def getHealthRead (stored : Option ProviderHealth) (providerId : String) (now : ℤ) :
    ProviderHealth × Option ProviderHealth :=
  (getHealthStatus stored providerId now, stored)

/-- `recordSuccess` from `providerHealthStore.ts`: the record written to storage.
The previous stored record is not read at all. -/
def recordSuccess (providerId : String) (now : ℤ) : ProviderHealth :=
  { providerId := providerId, state := CircuitState.CLOSED, failureCount := 0,
    lastAttempt := now }

/-- `recordFailure` from `providerHealthStore.ts`: the record written to storage.
`tRead` is `Date.now()` inside the initial `getHealthStatus` call, `tWrite` the
subsequent `const now = Date.now()`. -/
def recordFailure (stored : Option ProviderHealth) (providerId : String)
    (tRead tWrite : ℤ) : ProviderHealth :=
  let currentHealth := getHealthStatus stored providerId tRead
  let newFailureCount := currentHealth.failureCount + 1
  let newState :=
    if currentHealth.state = CircuitState.HALF_OPEN then CircuitState.OPEN
    else if newFailureCount ≥ FAILURE_THRESHOLD then CircuitState.OPEN
    else currentHealth.state
  { providerId := providerId, state := newState, failureCount := newFailureCount,
    lastAttempt := tWrite }

/-! ### Template renderer: `renderTemplate` in `app/services/llmService.ts`

`template.replace(/\{\{(.+?)\}\}/g, (_, key) => String(vars[key.trim()] ?? ''))`.

The regex scanner is modelled on `List Char`: at each position the engine
tries to match two literal opening braces, then the lazy `.+?` (at least one
character, none of which may be a line terminator, since `.` does not match
those), then two literal closing braces; on failure it advances one
character.  Lazy matching means the key ends at the earliest position `k ≥ 1`
at which two consecutive closing braces appear. -/

/-- JavaScript line terminators, which `.` does not match. -/
def isLineTerminator (c : Char) : Bool :=
  c = '\n' ∨ c = '\r' ∨ c.toNat = 0x2028 ∨ c.toNat = 0x2029

/-- JavaScript `\s` (the regex whitespace class), which is also the character
set removed by `String.prototype.trim`. -/
def isJsWhitespace (c : Char) : Bool :=
  let n := c.toNat
  n = 0x20 ∨ n = 0x9 ∨ n = 0xa ∨ n = 0xb ∨ n = 0xc ∨ n = 0xd ∨ n = 0xa0 ∨ n = 0x1680 ∨
    (0x2000 ≤ n ∧ n ≤ 0x200a) ∨ n = 0x2028 ∨ n = 0x2029 ∨ n = 0x202f ∨ n = 0x205f ∨
    n = 0x3000 ∨ n = 0xfeff

/-- `key.trim()`: strip leading and trailing JavaScript whitespace. -/
def jsTrim (cs : List Char) : List Char :=
  ((cs.dropWhile isJsWhitespace).reverse.dropWhile isJsWhitespace).reverse

/-- Scanner for the lazy `(.+?)\}\}` part, with at least one key character
already accumulated in `acc` (reversed). -/
def splitKeyGo (acc : List Char) : List Char → Option (List Char × List Char)
  | [] => none
  | c :: rest =>
    if c = '}' ∧ rest.head? = some '}' then some (acc.reverse, rest.tail)
    else if isLineTerminator c then none
    else splitKeyGo (c :: acc) rest

/-- Match `(.+?)\}\}` against `cs`: returns the captured key and the remainder
after the two closing braces, or `none` if the lazy match fails here. -/
def splitKey : List Char → Option (List Char × List Char)
  | [] => none
  | c :: rest => if isLineTerminator c then none else splitKeyGo [c] rest

/-- Helper fact for the termination of `renderChars`. -/
def splitKeyGo_rest_lt (cs : List Char) :
    ∀ acc key rest2, splitKeyGo acc cs = some (key, rest2) → rest2.length < cs.length := by
  induction cs with
  | nil => intro acc key rest2 h; simp [splitKeyGo] at h
  | cons c rest ih =>
    intro acc key rest2 h
    rw [splitKeyGo] at h
    split at h
    · cases h
      cases rest with
      | nil => simp at *
      | cons d r => simp [List.tail]; omega
    · split at h
      · cases h
      · have := ih (c :: acc) key rest2 h
        simp
        omega

/-- Helper fact for the termination of `renderChars`. -/
def splitKey_rest_lt (cs : List Char) (key rest2 : List Char)
    (h : splitKey cs = some (key, rest2)) : rest2.length < cs.length := by
  cases cs with
  | nil => simp [splitKey] at h
  | cons c rest =>
    rw [splitKey] at h
    split at h
    · cases h
    · have := splitKeyGo_rest_lt rest [c] key rest2 h
      simp
      omega

/-- `vars[k]` on the variables object, modelled as an association list in which
the first binding for a key wins (callers therefore list later-spread entries
first). -/
def lookupVar (vars : List (String × String)) (k : String) : Option String :=
  match vars with
  | [] => none
  | kv :: rest => if kv.1 = k then some kv.2 else lookupVar rest k

/-- `String(vars[k] ?? '')`. -/
def getVar (vars : List (String × String)) (k : String) : String :=
  (lookupVar vars k).getD ""

/-- The global-replace scan of `renderTemplate`, on character lists. -/
def renderChars (vars : List (String × String)) : List Char → List Char
  | [] => []
  | c :: rest =>
    if c = '{' ∧ rest.head? = some '{' then
      match h2 : splitKey rest.tail with
      | some (key, rest2) =>
        (getVar vars (String.mk (jsTrim key))).data ++ renderChars vars rest2
      | none => c :: renderChars vars rest
    else c :: renderChars vars rest
termination_by cs => cs.length
decreasing_by
  · have := splitKey_rest_lt rest.tail key rest2 h2
    have h3 : rest.tail.length ≤ rest.length := by
      cases rest <;> simp [List.tail]
    simp only [List.length_cons]
    omega
  · simp
  · simp

/-- `renderTemplate` from `app/services/llmService.ts`. -/
def renderTemplate (template : String) (vars : List (String × String)) : String :=
  String.mk (renderChars vars template.data)

/-- Whether the replace scan finds any `\{\{(.+?)\}\}` match in the input. -/
def hasTemplateToken : List Char → Bool
  | [] => false
  | c :: rest =>
    if c = '{' ∧ rest.head? = some '{' then
      (splitKey rest.tail).isSome || hasTemplateToken rest
    else hasTemplateToken rest

/-! ### JSON values and a model of `JSON.parse`

`Json` models decoded JavaScript JSON values.  `jsonParse` models the
platform `JSON.parse` (strict JSON grammar, duplicate object keys kept in
order of appearance with the last occurrence winning on property access,
full input consumed).  It is written with an explicit fuel argument; every
recursive call consumes at least one input character per unit of fuel, so
`input length + 16` units are always sufficient. -/

inductive Json where
  | null
  | bool (b : Bool)
  | num (q : ℚ)
  | str (s : String)
  | arr (elems : List Json)
  | obj (fields : List (String × Json))

/-- JSON insignificant whitespace. -/
def skipWs (cs : List Char) : List Char :=
  cs.dropWhile (fun c => c = ' ' ∨ c = '\t' ∨ c = '\n' ∨ c = '\r')

/-- Value of a hex digit, `none` for other characters. -/
def hexDigitVal (c : Char) : Option ℕ :=
  if '0' ≤ c ∧ c ≤ '9' then some (c.toNat - '0'.toNat)
  else if 'a' ≤ c ∧ c ≤ 'f' then some (c.toNat - 'a'.toNat + 10)
  else if 'A' ≤ c ∧ c ≤ 'F' then some (c.toNat - 'A'.toNat + 10)
  else none

/-- Decimal digits to a natural number. -/
def digitsToNat (ds : List Char) : ℕ :=
  ds.foldl (fun acc c => 10 * acc + (c.toNat - '0'.toNat)) 0

/-- JSON string body (after the opening quote), with the standard escapes.
`\uXXXX` that does not denote a scalar value degrades via `Char.ofNat`
(lone surrogates are a corner none of the claims touch). -/
def parseStringGo (acc : List Char) : List Char → Option (String × List Char)
  | [] => none
  | '"' :: rest => some (String.mk acc.reverse, rest)
  | '\\' :: '"' :: rest => parseStringGo ('"' :: acc) rest
  | '\\' :: '\\' :: rest => parseStringGo ('\\' :: acc) rest
  | '\\' :: '/' :: rest => parseStringGo ('/' :: acc) rest
  | '\\' :: 'b' :: rest => parseStringGo ('\x08' :: acc) rest
  | '\\' :: 'f' :: rest => parseStringGo ('\x0c' :: acc) rest
  | '\\' :: 'n' :: rest => parseStringGo ('\n' :: acc) rest
  | '\\' :: 'r' :: rest => parseStringGo ('\r' :: acc) rest
  | '\\' :: 't' :: rest => parseStringGo ('\t' :: acc) rest
  | '\\' :: 'u' :: h1 :: h2 :: h3 :: h4 :: rest =>
    (match hexDigitVal h1, hexDigitVal h2, hexDigitVal h3, hexDigitVal h4 with
     | some a, some b, some c, some d =>
       parseStringGo (Char.ofNat (((a * 16 + b) * 16 + c) * 16 + d) :: acc) rest
     | _, _, _, _ => none)
  | '\\' :: _ => none
  | c :: rest => if c.toNat < 0x20 then none else parseStringGo (c :: acc) rest

/-- JSON string body starting right after an opening quote. -/
def parseStringBody (cs : List Char) : Option (String × List Char) :=
  parseStringGo [] cs

/-- Optionally signed decimal digits (for the exponent part). -/
def parseSignedDigits (cs : List Char) : Option (ℤ × List Char) :=
  let sgn : ℤ := match cs with | '-' :: _ => -1 | _ => 1
  let cs1 := match cs with | '-' :: r => r | '+' :: r => r | _ => cs
  let ds := cs1.takeWhile Char.isDigit
  if ds = [] then none else some (sgn * (digitsToNat ds : ℤ), cs1.drop ds.length)

/-- Assemble a JSON number from its parts: the value
`± (I.F) × 10^e = ± (I·10^f + F) / 10^f × 10^e` (with `f` the number of
fraction digits), built with `mkRat` over integer arithmetic. -/
def finishNumber (neg : Bool) (intDs : List Char) (fracDs : Option (List Char)) (e : ℤ) : ℚ :=
  let frac := fracDs.getD []
  let mantissa : ℤ := Int.ofNat (digitsToNat intDs * 10 ^ frac.length + digitsToNat frac)
  let signedMantissa := if neg then -mantissa else mantissa
  if e ≥ 0 then mkRat (signedMantissa * Int.ofNat (10 ^ e.toNat)) (10 ^ frac.length)
  else mkRat signedMantissa (10 ^ frac.length * 10 ^ (-e).toNat)

/-- JSON number grammar: `-? int frac? exp?` with the leading-zero restriction. -/
def parseNumberQ (cs : List Char) : Option (ℚ × List Char) :=
  let neg : Bool := match cs with | '-' :: _ => true | _ => false
  let cs1 := match cs with | '-' :: r => r | _ => cs
  let intDs := cs1.takeWhile Char.isDigit
  let cs2 := cs1.drop intDs.length
  if intDs = [] then none
  else if intDs.head? = some '0' ∧ intDs.length ≠ 1 then none
  else
    let fracDs : Option (List Char) :=
      match cs2 with | '.' :: r => some (r.takeWhile Char.isDigit) | _ => none
    let cs3 :=
      match cs2 with
      | '.' :: r => r.drop (r.takeWhile Char.isDigit).length
      | _ => cs2
    if fracDs = some [] then none
    else
      match cs3 with
      | 'e' :: r =>
        (match parseSignedDigits r with
         | some (e, cs4) => some (finishNumber neg intDs fracDs e, cs4)
         | none => none)
      | 'E' :: r =>
        (match parseSignedDigits r with
         | some (e, cs4) => some (finishNumber neg intDs fracDs e, cs4)
         | none => none)
      | _ => some (finishNumber neg intDs fracDs 0, cs3)

mutual

/-- One JSON value (leading whitespace allowed), fuel-bounded. -/
def parseValue : ℕ → List Char → Option (Json × List Char)
  | 0, _ => none
  | fuel + 1, cs =>
    match skipWs cs with
    | '{' :: rest =>
      (match skipWs rest with
       | '}' :: r2 => some (Json.obj [], r2)
       | _ => parseMembers fuel rest [])
    | '[' :: rest =>
      (match skipWs rest with
       | ']' :: r2 => some (Json.arr [], r2)
       | _ => parseElems fuel rest [])
    | '"' :: rest => (parseStringBody rest).map (fun p => (Json.str p.1, p.2))
    | 't' :: 'r' :: 'u' :: 'e' :: rest => some (Json.bool true, rest)
    | 'f' :: 'a' :: 'l' :: 's' :: 'e' :: rest => some (Json.bool false, rest)
    | 'n' :: 'u' :: 'l' :: 'l' :: rest => some (Json.null, rest)
    | rest => (parseNumberQ rest).map (fun p => (Json.num p.1, p.2))

/-- Members of a JSON object (at least one), fuel-bounded.  Duplicate keys are
kept in order; property access takes the last occurrence, as `JSON.parse` does. -/
def parseMembers : ℕ → List Char → List (String × Json) → Option (Json × List Char)
  | 0, _, _ => none
  | fuel + 1, cs, acc =>
    match skipWs cs with
    | '"' :: rest =>
      (match parseStringBody rest with
       | none => none
       | some (key, r1) =>
         (match skipWs r1 with
          | ':' :: r2 =>
            (match parseValue fuel r2 with
             | none => none
             | some (v, r3) =>
               (match skipWs r3 with
                | ',' :: r4 => parseMembers fuel r4 (acc ++ [(key, v)])
                | '}' :: r4 => some (Json.obj (acc ++ [(key, v)]), r4)
                | _ => none))
          | _ => none))
    | _ => none

/-- Elements of a JSON array (at least one), fuel-bounded. -/
def parseElems : ℕ → List Char → List Json → Option (Json × List Char)
  | 0, _, _ => none
  | fuel + 1, cs, acc =>
    match parseValue fuel cs with
    | none => none
    | some (v, r1) =>
      (match skipWs r1 with
       | ',' :: r2 => parseElems fuel r2 (acc ++ [v])
       | ']' :: r2 => some (Json.arr (acc ++ [v]), r2)
       | _ => none)

end

/-- Model of the platform `JSON.parse`: parses one value and requires the rest
of the input to be whitespace.  Returns `none` where `JSON.parse` throws. -/
def jsonParse (s : String) : Option Json :=
  match parseValue (s.length + 16) s.data with
  | some (j, rest) => if skipWs rest = [] then some j else none
  | none => none

/-! ### Parsed-signal schema: `ParsedSignalSchema` in `app/schemas.ts`

`z.object({ type: z.enum(['BUY','SELL','HOLD']), confidence:
z.number().min(0).max(100), price: z.number().positive(), stopLoss:
z.number().positive(), takeProfit: z.number().positive(), reasoning:
z.string().optional() }).partial()`: every field is optional, but a field
that is present (including an explicit `null`) must validate; unknown keys
are stripped; non-object input fails. -/

/-- `SignalType` from the app sources. -/
inductive SignalType where
  | BUY
  | SELL
  | HOLD
deriving DecidableEq, Repr

/-- The validated partial signal produced by `ParsedSignalSchema.safeParse`. -/
structure ParsedSignal where
  type : Option SignalType := none
  confidence : Option ℚ := none
  price : Option ℚ := none
  stopLoss : Option ℚ := none
  takeProfit : Option ℚ := none
  reasoning : Option String := none
deriving DecidableEq, Repr

/-- Property access on a decoded JSON object: the last occurrence of a
duplicated key wins, as it does for the object `JSON.parse` builds. -/
def objGetLast (fields : List (String × Json)) (k : String) : Option Json :=
  match fields with
  | [] => none
  | kv :: rest =>
    match objGetLast rest k with
    | some v => some v
    | none => if kv.1 = k then some kv.2 else none

/-- `z.enum(['BUY','SELL','HOLD'])` on a JSON value. -/
def checkSignalType (j : Json) : Option SignalType :=
  match j with
  | Json.str s =>
    if s = "BUY" then some SignalType.BUY
    else if s = "SELL" then some SignalType.SELL
    else if s = "HOLD" then some SignalType.HOLD
    else none
  | _ => none

/-- `z.number().min(0).max(100)` on a JSON value. -/
def checkConfidence (j : Json) : Option ℚ :=
  match j with
  | Json.num q => if 0 ≤ q ∧ q ≤ 100 then some q else none
  | _ => none

/-- `z.number().positive()` on a JSON value. -/
def checkPositiveNum (j : Json) : Option ℚ :=
  match j with
  | Json.num q => if 0 < q then some q else none
  | _ => none

/-- `z.string()` on a JSON value. -/
def checkString (j : Json) : Option String :=
  match j with
  | Json.str s => some s
  | _ => none

/-- A `.partial()` field: absent is fine, present must validate. -/
def checkOptionalField (v : Option Json) (check : Json → Option α) : Option (Option α) :=
  match v with
  | none => some none
  | some j => (check j).map some

/-- `ParsedSignalSchema.safeParse`, returning `some` of the validated data on
success and `none` where zod reports a validation error. -/
def parsedSignalSafeParse (j : Json) : Option ParsedSignal :=
  match j with
  | Json.obj fields =>
    match checkOptionalField (objGetLast fields "type") checkSignalType,
          checkOptionalField (objGetLast fields "confidence") checkConfidence,
          checkOptionalField (objGetLast fields "price") checkPositiveNum,
          checkOptionalField (objGetLast fields "stopLoss") checkPositiveNum,
          checkOptionalField (objGetLast fields "takeProfit") checkPositiveNum,
          checkOptionalField (objGetLast fields "reasoning") checkString with
    | some t, some c, some p, some sl, some tp, some r =>
      some { type := t, confidence := c, price := p, stopLoss := sl, takeProfit := tp,
             reasoning := r }
    | _, _, _, _, _, _ => none
  | _ => none

/-! ### Response text extraction: `extractTextFromObject` in
`app/services/_utils_helpers.ts` -/

/-- JavaScript falsiness of a decoded JSON value (`!obj`). -/
def jsFalsy (j : Json) : Bool :=
  match j with
  | Json.null => true
  | Json.bool b => ¬b
  | Json.num q => q = 0
  | Json.str s => s = ""
  | _ => false

/-- `choices[0]`-style probe: first element of an array property, and it must
be truthy for the `obj.choices[0]` guard. -/
def firstTruthyElem (v : Option Json) : Option Json :=
  match v with
  | some (Json.arr (e :: _)) => if jsFalsy e then none else some e
  | _ => none


/-- The OpenAI-style probe: with `c = choices[0]`,
`if (c.message && typeof c.message.content === 'string') return c.message.content;
if (typeof c.text === 'string') return c.text;`.  `none` means fall-through. -/
def choicesProbe (fields : List (String × Json)) : Option String :=
  match firstTruthyElem (objGetLast fields "choices") with
  | some (Json.obj cf) =>
    (match objGetLast cf "message" with
     | some (Json.obj mf) =>
       (match objGetLast mf "content" with
        | some (Json.str s) => some s
        | _ =>
          (match objGetLast cf "text" with
           | some (Json.str s) => some s
           | _ => none))
     | _ =>
       (match objGetLast cf "text" with
        | some (Json.str s) => some s
        | _ => none))
  | _ => none

/-- The Gemini-style probe.  When its guard passes it returns
`some (parts[0].text ?? null)` — an early `return`, even when the result is
`null`; `none` means the guard failed and control falls through.  A
non-string, non-null `text` would be returned as-is in JavaScript and make
the caller throw on `.match`; that corner is modelled as `some none`. -/
def candidatesProbe (fields : List (String × Json)) : Option (Option String) :=
  match firstTruthyElem (objGetLast fields "candidates") with
  | some (Json.obj candf) =>
    (match objGetLast candf "content" with
     | some (Json.obj contf) =>
       (match firstTruthyElem (objGetLast contf "parts") with
        | some (Json.obj pf) =>
          some (match objGetLast pf "text" with
                | some (Json.str s) => some s
                | _ => none)
        | some _ => some none
        | none => none)
     | _ => none)
  | _ => none

/-- Continuation of `flatProbes` after the `completion` check. -/
def flatProbesAfterCompletion (fields : List (String × Json)) : Option String :=
  match objGetLast fields "text" with
  | some (Json.str s) => some s
  | _ =>
    match objGetLast fields "content" with
    | some (Json.str s) => some s
    | _ =>
      match objGetLast fields "response" with
      | some (Json.str s) => some s
      | _ =>
        match objGetLast fields "output" with
        | some (Json.str s) => some s
        | _ => none

/-- The flat string-field probes: `completion` (required truthy, hence
non-empty), then `text`, `content`, `response`, `output`. -/
def flatProbes (fields : List (String × Json)) : Option String :=
  match objGetLast fields "completion" with
  | some (Json.str s) =>
    if s ≠ "" then some s else flatProbesAfterCompletion fields
  | _ => flatProbesAfterCompletion fields

/-- `extractTextFromObject` from `app/services/_utils_helpers.ts`. -/
def extractTextFromObject (obj : Json) : Option String :=
  if jsFalsy obj then none
  else
    match obj with
    | Json.str s => some s
    | Json.obj fields =>
      (match choicesProbe fields with
       | some s => some s
       | none =>
         (match candidatesProbe fields with
          | some r => r
          | none => flatProbes fields))
    | _ => none

/-! ### Provider adapter: `buildAdapterFromSpec(...).call` in
`app/services/llmService.ts` (the copy that consults the health store)

Asynchronous effects are modelled by an explicit environment (`CallEnv`:
the stored health record and read time, the secrets snapshot, and the
outcome of each HTTP attempt) and an explicit effects trace (`CallTrace`:
attempts made, back-off sleeps, health-tracker writes, whether secrets were
fetched, and the rendered request).  The outbound body normalisation
(`JSON.parse` then re-`stringify` of the rendered template) only affects the
wire format of the request, which no claim observes; the trace records the
rendered body text. -/

/-- `text.match(/\{[\s\S]*\}/)`: the greedy match runs from the first opening
brace to the last closing brace, provided some closing brace follows the
first opening one. -/
def braceMatchList (cs : List Char) : Option (List Char) :=
  match cs.dropWhile (fun c => c ≠ '{') with
  | [] => none
  | c :: rest =>
    let r := rest.reverse.dropWhile (fun d => d ≠ '}')
    if r = [] then none else some (c :: r.reverse)

/-- `braceMatchList` on strings. -/
def braceMatch (t : String) : Option String :=
  (braceMatchList t.data).map String.mk

/-- `LLMResponseParsed` from the app sources.  `raw := none` models the
JavaScript `null`. -/
structure LLMResponseParsed where
  providerId : String
  raw : Option Json
  ok : Bool
  parsed : Option ParsedSignal
  error : Option String

/-- A write to the provider health tracker. -/
inductive TrackerEvent where
  | success
  | failure
deriving DecidableEq, Repr

/-- `ProviderSpec` from `app/utils/providerStore.ts` (the fields the adapter
reads). -/
structure ProviderSpec where
  id : String
  name : Option String := none
  endpoint : String
  model : Option String := none
  headers : List (String × String) := []
  requestTemplate : Option String := none
  timeoutMs : Option ℕ := none
  maxRetries : Option ℕ := none

/-- The environment one `call` runs in: the health record stored for this
provider and the `Date.now()` of the health read, the secrets snapshot
(`getProviderSecrets(spec.id) || {}`), and the outcome of the `i`-th HTTP
attempt (`fetchWithTimeout` + `res.json()`): a decoded body, or a thrown
transport error stringified. -/
structure CallEnv where
  healthStore : Option ProviderHealth
  healthReadTime : ℤ
  secrets : List (String × String)
  attemptResult : ℕ → Except String Json

/-- Effects trace of one `call`. -/
structure CallTrace where
  httpAttempts : ℕ
  sleepsMs : List ℕ
  trackerEvents : List TrackerEvent
  secretsFetched : Bool
  requestHeaders : List (String × String)
  requestBodyText : String

/-- Processing of a successfully fetched body `raw`: extract text, match a
brace block, `JSON.parse` it, validate with `ParsedSignalSchema`.  Returns
the response together with the tracker writes this branch performs.  (The
`if (parsedJson)` truthiness test always passes here because a parsed brace
block is an object.)  The schema-invalid branch performs no tracker write:
the source returns directly after `console.warn`. -/
def processRaw (pid : String) (raw : Json) : LLMResponseParsed × List TrackerEvent :=
  let text := extractTextFromObject raw
  let parsedJson : Option Json :=
    match text with
    | some t =>
      if t ≠ "" then
        (match braceMatch t with
         | some sub => jsonParse sub
         | none => none)
      else none
    | none => none
  match parsedJson with
  | some pj =>
    (match parsedSignalSafeParse pj with
     | some sig =>
       ({ providerId := pid, raw := some raw, ok := true, parsed := some sig, error := none },
        [TrackerEvent.success])
     | none =>
       ({ providerId := pid, raw := some raw, ok := false, parsed := none,
          error := some "Invalid response schema" }, []))
  | none =>
    ({ providerId := pid, raw := some raw, ok := false, parsed := none,
       error := some "No valid JSON found in response" }, [TrackerEvent.failure])

/-- `String(lastErr)` at loop exit (`String(null) = "null"`). -/
def stringifyLastErr (lastErr : Option String) : String :=
  match lastErr with
  | some e => e
  | none => "null"

/-- The `while (attempt <= retries)` fetch loop.  `fuel` equals
`retries + 1 - attempt`, so `fuel = 0` exactly when the loop guard fails.
Returns the response and `(httpAttempts, sleepsMs, trackerEvents)`.  On a
caught transport error the source increments `attempt` first and then sleeps
`200 * 2 ** attempt` if another attempt remains. -/
def adapterCallLoop (pid : String) (retries : ℕ) (attemptResult : ℕ → Except String Json) :
    ℕ → ℕ → Option String → LLMResponseParsed × (ℕ × List ℕ × List TrackerEvent)
  | 0, _, lastErr =>
    ({ providerId := pid, raw := none, ok := false, parsed := none,
       error := some (stringifyLastErr lastErr) }, (0, [], [TrackerEvent.failure]))
  | fuel + 1, attempt, _ =>
    match attemptResult attempt with
    | Except.ok raw =>
      let pr := processRaw pid raw
      (pr.1, (1, [], pr.2))
    | Except.error e =>
      let next := attempt + 1
      let rest := adapterCallLoop pid retries attemptResult fuel next (some e)
      (rest.1, (rest.2.1 + 1,
                (if next ≤ retries then [200 * 2 ^ next] else []) ++ rest.2.2.1,
                rest.2.2.2))

/-- `buildAdapterFromSpec(spec).call(prompt, extra)` from
`app/services/llmService.ts`, with its effects trace.  In the variable
objects, later object-spread entries win, so the association lists place
`extra` before `secrets` (headers) and before the `prompt`/`model` defaults
(body). -/
def buildAdapterCall (spec : ProviderSpec) (env : CallEnv) (prompt : String)
    (extra : List (String × String)) : LLMResponseParsed × CallTrace :=
  let retries := spec.maxRetries.getD 1
  let health := getHealthStatus env.healthStore spec.id env.healthReadTime
  if health.state = CircuitState.OPEN then
    ({ providerId := spec.id, raw := none, ok := false, parsed := none,
       error := some ("Circuit breaker is open for " ++ spec.id ++ ". Temporarily unavailable.") },
     { httpAttempts := 0, sleepsMs := [], trackerEvents := [], secretsFetched := false,
       requestHeaders := [], requestBodyText := "" })
  else
    let headerVars := extra ++ env.secrets
    let headers := spec.headers.map (fun kv => (kv.1, renderTemplate kv.2 headerVars))
    let tmpl := spec.requestTemplate.getD
      "\x7b\"prompt\":\"\x7b\x7bprompt\x7d\x7d\",\"model\":\"\x7b\x7bmodel\x7d\x7d\"\x7d"
    let bodyText := renderTemplate tmpl (extra ++ [("prompt", prompt), ("model", spec.model.getD "")])
    let r := adapterCallLoop spec.id retries env.attemptResult (retries + 1) 0 none
    (r.1, { httpAttempts := r.2.1, sleepsMs := r.2.2.1, trackerEvents := r.2.2.2,
            secretsFetched := true, requestHeaders := headers, requestBodyText := bodyText })

/-! ### Aggregation: `generateTradingSignal` in `app/services/signalService.ts`

The prompt construction, market-data fetch, adapter dispatch, and playbook
write are environment interactions; the aggregation of the settled
`providerResponses` list into the final signal (lines 58-112 of the source)
is modelled as the pure function `generateFinalSignal`, with the fresh
`uuidv4()` and `Date.now()` passed in as parameters. -/

/-- `Math.round`: round half toward positive infinity. -/
def jsRound (q : ℚ) : ℤ :=
  ⌊q + 1 / 2⌋

/-- `Math.round(x * 100) / 100`. -/
def jsRound2 (q : ℚ) : ℚ :=
  (jsRound (q * 100) : ℚ) / 100

/-- `const avg = (arr) => (arr.length ? arr.reduce((a,b) => a+b, 0) / arr.length : 0)`. -/
def qAvg (xs : List ℚ) : ℚ :=
  if xs.length = 0 then 0 else xs.sum / xs.length

/-- `AggregationMode` from `signalService.ts`. -/
inductive AggregationMode where
  | MAJORITY
  | WEIGHTED
  | FIRST
deriving DecidableEq, Repr

/-- `RiskMetrics` of the final signal (`maxDrawdownPercent` is never set by
this code path). -/
structure RiskMetrics where
  stopLoss : ℚ
  takeProfit : ℚ
  riskRewardRatio : ℚ
  positionSizePercent : ℚ
deriving DecidableEq, Repr

/-- The final `TradingSignal` (the `indicators: { mtf }` payload is external
market data and not modelled). -/
structure TradingSignal where
  id : String
  symbol : String
  type : SignalType
  confidence : ℚ
  price : ℚ
  timestamp : ℤ
  strategy : Option String
  riskMetrics : RiskMetrics
  reasoning : Option String
  status : Option String
deriving DecidableEq, Repr

/-- `(p.parsed!.type || 'HOLD')`: an absent type votes HOLD. -/
def respType (r : LLMResponseParsed) : SignalType :=
  ((r.parsed.getD {}).type).getD SignalType.HOLD

/-- `(it.parsed!.confidence ?? 50)`. -/
def respConf (r : LLMResponseParsed) : ℚ :=
  ((r.parsed.getD {}).confidence).getD 50

/-- The group keys of the `groups` record in first-encounter order (string
keys of a JavaScript object preserve insertion order). -/
def keysInOrder (parsed : List LLMResponseParsed) : List SignalType :=
  parsed.foldl (fun acc r => if respType r ∈ acc then acc else acc ++ [respType r]) []

/-- The members of one vote group, in dispatch order. -/
def groupItems (parsed : List LLMResponseParsed) (t : SignalType) : List LLMResponseParsed :=
  parsed.filter (fun r => respType r = t)

/-- A group's `avgConf`: the running average recomputed on every push equals
the arithmetic mean of the members' confidences. -/
def groupAvgConf (parsed : List LLMResponseParsed) (t : SignalType) : ℚ :=
  qAvg ((groupItems parsed t).map respConf)

/-- Tail of the winner selection: current best is replaced only by a strictly
greater score. -/
def argmaxFirstGo (score : SignalType → ℚ) (best : SignalType) :
    List SignalType → SignalType
  | [] => best
  | t :: rest =>
    if score t > score best then argmaxFirstGo score t rest
    else argmaxFirstGo score best rest

/-- `Object.keys(groups).sort((a,b) => score(b) - score(a))[0]`:
`Array.prototype.sort` is stable and only index 0 is consumed, so the winner
is the first-encountered key of maximal score. -/
def argmaxFirst (score : SignalType → ℚ) : List SignalType → SignalType
  | [] => SignalType.HOLD
  | t :: rest => argmaxFirstGo score t rest

/-- The winner-type selection of `generateTradingSignal` on the filtered
`parsed` list (assumed non-empty by the caller). -/
def selectWinner (parsed : List LLMResponseParsed) (mode : AggregationMode) : SignalType :=
  match mode with
  | AggregationMode.MAJORITY =>
    argmaxFirst (fun t => ((groupItems parsed t).length : ℚ)) (keysInOrder parsed)
  | AggregationMode.WEIGHTED =>
    argmaxFirst (fun t => ((groupItems parsed t).length : ℚ) * groupAvgConf parsed t)
      (keysInOrder parsed)
  | AggregationMode.FIRST =>
    match parsed with
    | [] => SignalType.HOLD
    | r :: _ => respType r

/-- `p.parsed!.reasoning || 'No reasoning provided.'` (the empty string is
falsy and also falls back). -/
def reasoningOf (r : LLMResponseParsed) : String :=
  match (r.parsed.getD {}).reasoning with
  | some s => if s = "" then "No reasoning provided." else s
  | none => "No reasoning provided."

/-- Lines 108-112 of `signalService.ts`: the risk/reward mutation applied to
the assembled signal.  Only `price` and `stopLoss` are tested for
truthiness; `takeProfit` is not. -/
def computeRiskReward (price stopLoss takeProfit : ℚ) : ℚ :=
  if price ≠ 0 ∧ stopLoss ≠ 0 then
    let risk := |price - stopLoss|
    let reward := |takeProfit - price|
    if risk > 0 then jsRound2 (reward / risk) else 0
  else 0

/-- The aggregation of `generateTradingSignal`: filter to `ok && parsed`,
group by type, select the winner, average the winning group's numeric fields
over the members that supplied them (`filter(Number.isFinite)` drops the
absent ones; `NaN`/`Infinity` cannot arise from schema-validated values),
and assemble the final record. -/
def generateFinalSignal (symbol : String) (responses : List LLMResponseParsed)
    (aggregation : AggregationMode) (positionRiskPercent : Option ℚ)
    (id : String) (timestamp : ℤ) : Option TradingSignal :=
  let parsed := responses.filter (fun r => r.ok ∧ r.parsed.isSome)
  if parsed.length = 0 then none
  else
    let winnerType := selectWinner parsed aggregation
    let winnerItems := groupItems parsed winnerType
    let entry := qAvg (winnerItems.filterMap (fun r => (r.parsed.getD {}).price))
    let stopLoss := qAvg (winnerItems.filterMap (fun r => (r.parsed.getD {}).stopLoss))
    let takeProfit := qAvg (winnerItems.filterMap (fun r => (r.parsed.getD {}).takeProfit))
    let confidence := (jsRound (groupAvgConf parsed winnerType) : ℚ)
    some { id := id, symbol := symbol, type := winnerType, confidence := confidence,
           price := entry, timestamp := timestamp,
           strategy := some "dynamic-llm-consensus",
           riskMetrics := { stopLoss := stopLoss, takeProfit := takeProfit,
                            riskRewardRatio := computeRiskReward entry stopLoss takeProfit,
                            positionSizePercent := positionRiskPercent.getD 2 },
           reasoning := some (String.intercalate "\n---\n" (winnerItems.map reasoningOf)),
           status := some "NEW" }

/-! ### Prototype parse pipeline with regex fallback:
`createLLMAdapter(...).call` in `src/services/llmService.ts`, lines 141-166

On a fetched body the prototype extracts text, tries the brace-block
`JSON.parse` (unvalidated there), and otherwise extracts fields by regular
expressions.  The text-to-signal step is modelled as `parseSignalFromText`. -/

/-- A JavaScript `Number(...)` result: a rational or `NaN`. -/
inductive JsNum where
  | nan
  | val (q : ℚ)
deriving DecidableEq, Repr

/-- JavaScript `\w`: `[A-Za-z0-9_]`. -/
def isWordChar (c : Char) : Bool :=
  ('a' ≤ c ∧ c ≤ 'z') ∨ ('A' ≤ c ∧ c ≤ 'Z') ∨ ('0' ≤ c ∧ c ≤ '9') ∨ c = '_'

/-- The `[:\s]` class. -/
def isColonOrSpace (c : Char) : Bool :=
  c = ':' ∨ isJsWhitespace c

/-- The `[0-9,.]` class. -/
def isMoneyChar (c : Char) : Bool :=
  c.isDigit ∨ c = ',' ∨ c = '.'

/-- Case-insensitive literal match (`pat` given in lower case); returns the
remainder on success.  The `/i` flag on ASCII letters is plain
case-folding. -/
def stripPrefixCI : List Char → List Char → Option (List Char)
  | [], cs => some cs
  | _ :: _, [] => none
  | p :: ps, c :: cs => if c.toLower = p then stripPrefixCI ps cs else none

/-- `\bWORD\b` at the head of `cs` (the left boundary is checked by the
caller): the word matches case-insensitively and the next character, if any,
is not a word character. -/
def wordAt (w : List Char) (cs : List Char) : Bool :=
  match stripPrefixCI w cs with
  | some [] => true
  | some (d :: _) => ¬isWordChar d
  | none => false

/-- `text.match(/\b(BUY|SELL|HOLD)\b/i)`: leftmost match, alternatives tried
in order; `prev` is the character before the current position for the left
word boundary. -/
def findSignalWord (prev : Option Char) : List Char → Option SignalType
  | [] => none
  | c :: rest =>
    let leftOk : Bool := match prev with | none => true | some p => !isWordChar p
    if leftOk && wordAt ['b', 'u', 'y'] (c :: rest) then some SignalType.BUY
    else if leftOk && wordAt ['s', 'e', 'l', 'l'] (c :: rest) then some SignalType.SELL
    else if leftOk && wordAt ['h', 'o', 'l', 'd'] (c :: rest) then some SignalType.HOLD
    else findSignalWord (some c) rest

/-- `text.match(/Confidence[:\s]*([0-9]{1,3})/i)` followed by `Number(m[1])`:
scan for the literal label, greedily skip `[:\s]*`, then capture one to
three digits. -/
def findConfidence : List Char → Option ℕ
  | [] => none
  | c :: rest =>
    match stripPrefixCI "confidence".data (c :: rest) with
    | some r1 =>
      let r2 := r1.dropWhile isColonOrSpace
      let ds := (r2.takeWhile Char.isDigit).take 3
      if ds.length = 0 then findConfidence rest else some (digitsToNat ds)
    | none => findConfidence rest

/-- Match the label parts in order with `\s*` between them (for
`Stop\s*Loss` and `Take\s*Profit`). -/
def stripParts : List (List Char) → List Char → Option (List Char)
  | [], cs => some cs
  | [p], cs => stripPrefixCI p cs
  | p :: ps, cs =>
    match stripPrefixCI p cs with
    | some r => stripParts ps (r.dropWhile isJsWhitespace)
    | none => none

/-- `Number(...)` on a non-empty string drawn from `[0-9.]` (commas already
stripped): `Number('') = 0`, a single extra dot pattern such as `'.'` or two
dots yield `NaN`. -/
def jsNumberOfDigitsDots (cs : List Char) : JsNum :=
  if cs.length = 0 then JsNum.val 0
  else
    let intPart := cs.takeWhile Char.isDigit
    let rest := cs.drop intPart.length
    match rest with
    | [] => JsNum.val (digitsToNat intPart : ℚ)
    | '.' :: frac =>
      if frac.all Char.isDigit then
        if intPart.length = 0 ∧ frac.length = 0 then JsNum.nan
        else
          JsNum.val
            (mkRat (Int.ofNat (digitsToNat intPart * 10 ^ frac.length + digitsToNat frac))
              (10 ^ frac.length))
      else JsNum.nan
    | _ => JsNum.nan

/-- `Number(m[1].replace(/,/g, ''))`. -/
def jsNumberOfMoney (ds : List Char) : JsNum :=
  jsNumberOfDigitsDots (ds.filter (fun c => c ≠ ','))

/-- `text.match(/LABEL[:\s]*\$?([0-9,.]+)/i)` followed by comma-stripping and
`Number`: scan for the label parts, greedily skip `[:\s]*`, optionally one
dollar sign, then capture a non-empty greedy `[0-9,.]+` run.  (Backtracking
over `\$?` cannot help: `$` is not in the capture class.) -/
def findMoney (parts : List (List Char)) : List Char → Option JsNum
  | [] => none
  | c :: rest =>
    match stripParts parts (c :: rest) with
    | some r1 =>
      let r2 := r1.dropWhile isColonOrSpace
      let r3 := match r2 with | '$' :: t => t | _ => r2
      let ds := r3.takeWhile isMoneyChar
      if ds.length = 0 then findMoney parts rest else some (jsNumberOfMoney ds)
    | none => findMoney parts rest

/-- The partial signal `s` built by the regex fallback.  In the source the
stop-loss and take-profit land in a nested `s.riskMetrics`; they are
flattened here, which preserves the `Object.keys(s).length` emptiness test
because `riskMetrics` is present exactly when one of the two matched. -/
structure RegexSignal where
  type : Option SignalType := none
  confidence : Option ℚ := none
  price : Option JsNum := none
  stopLoss : Option JsNum := none
  takeProfit : Option JsNum := none
deriving DecidableEq, Repr

/-- The regex-fallback extraction (`if (!parsedSignal && text) { ... }`). -/
def regexExtract (text : String) : Option RegexSignal :=
  let cs := text.data
  let s : RegexSignal :=
    { type := findSignalWord none cs
      confidence := (findConfidence cs).map (fun n => (n : ℚ))
      price := findMoney ["entry".data] cs
      stopLoss := findMoney ["stop".data, "loss".data] cs
      takeProfit := findMoney ["take".data, "profit".data] cs }
  if s.type.isSome ∨ s.confidence.isSome ∨ s.price.isSome ∨ s.stopLoss.isSome ∨
      s.takeProfit.isSome then
    some s
  else none

/-- The prototype's parsed signal: either the unvalidated `JSON.parse` result
of the brace block, cast as-is, or the regex-extracted fields. -/
inductive SrcParsed where
  | fromJson (j : Json)
  | fromRegex (s : RegexSignal)

/-- Text-to-signal step of `createLLMAdapter(...).call`
(`src/services/llmService.ts` lines 141-166): with truthy text, try the
brace block as JSON; if there is no block or it fails to parse, fall back to
the regular expressions; `none` models `parsedSignal` left `undefined`. -/
def parseSignalFromText (text : String) : Option SrcParsed :=
  if text = "" then none
  else
    match (braceMatch text).bind jsonParse with
    | some j => some (SrcParsed.fromJson j)
    | none => (regexExtract text).map SrcParsed.fromRegex

/-! ### Concrete instances used to exercise the theorems -/

/-- A minimal provider spec (defaults: `timeoutMs 9000`, `maxRetries 1`). -/
def specBasic : ProviderSpec :=
  { id := "prov-a", endpoint := "https://api.example.test/generate" }

/-- A provider spec with `maxRetries = 1` given explicitly. -/
def specRetryOne : ProviderSpec :=
  { id := "prov-b", endpoint := "https://api.example.test/generate", maxRetries := some 1 }

/-- A provider spec for the circuit-open scenario. -/
def specOpen : ProviderSpec :=
  { id := "prov-c", endpoint := "https://api.example.test/generate" }

/-- An environment whose stored health record is OPEN and recent, so the
health read still reports OPEN. -/
def envCircuitOpen : CallEnv :=
  { healthStore := some { providerId := "prov-c", state := CircuitState.OPEN,
                          failureCount := 3, lastAttempt := 0 },
    healthReadTime := 1000, secrets := [("API_KEY", "k")],
    attemptResult := fun _ => Except.error "unreachable" }

/-- An environment whose first HTTP attempt yields a body whose text is a
JSON object that fails schema validation (`confidence: 150 > 100`). -/
def envSchemaInvalid : CallEnv :=
  { healthStore := none, healthReadTime := 0, secrets := [],
    attemptResult := fun _ => Except.ok (Json.str "\x7b\"confidence\": 150\x7d") }

/-- An environment whose first HTTP attempt yields a body whose text is the
empty JSON object. -/
def envEmptyObject : CallEnv :=
  { healthStore := none, healthReadTime := 0, secrets := [],
    attemptResult := fun _ => Except.ok (Json.str "\x7b\x7d") }

/-- An environment in which every HTTP attempt fails in transport. -/
def envAllFail : CallEnv :=
  { healthStore := none, healthReadTime := 0, secrets := [],
    attemptResult := fun _ => Except.error "boom" }

/-- Provider response `{BUY, conf 80, price 100, stopLoss 95, takeProfit 110}`. -/
def respBuy80 : LLMResponseParsed :=
  { providerId := "p1", raw := none, ok := true,
    parsed := some { type := some SignalType.BUY, confidence := some 80, price := some 100,
                     stopLoss := some 95, takeProfit := some 110 },
    error := none }

/-- Provider response `{BUY, conf 60, price 102}`. -/
def respBuy60 : LLMResponseParsed :=
  { providerId := "p2", raw := none, ok := true,
    parsed := some { type := some SignalType.BUY, confidence := some 60, price := some 102 },
    error := none }

/-- Provider response `{SELL, conf 90, price 98}`. -/
def respSell90 : LLMResponseParsed :=
  { providerId := "p3", raw := none, ok := true,
    parsed := some { type := some SignalType.SELL, confidence := some 90, price := some 98 },
    error := none }

/-- A single response with `price` and `stopLoss` but no `takeProfit`. -/
def respNoTp : LLMResponseParsed :=
  { providerId := "p4", raw := none, ok := true,
    parsed := some { type := some SignalType.BUY, confidence := some 50, price := some 100,
                     stopLoss := some 95 },
    error := none }

/-! ## Claim theorems -/

/-- C1: Circuit-breaker state machine.  `recordSuccess` always writes
CLOSED/0 (with the write time).  From a CLOSED health view, `recordFailure`
increments `failureCount` and opens the circuit exactly when the new count
reaches `FAILURE_THRESHOLD`, stamping `lastAttempt` with the failure time.
From a HALF_OPEN view a single `recordFailure` immediately re-opens the
circuit and updates `lastAttempt`.  Starting from the default record (empty
store), three consecutive failures go CLOSED/1, CLOSED/2, then OPEN/3 with
`lastAttempt` the time of the third failure. -/
theorem circuit_breaker_record_transitions :
    (∀ (providerId : String) (now : ℤ),
      recordSuccess providerId now =
        { providerId := providerId, state := CircuitState.CLOSED, failureCount := 0,
          lastAttempt := now })
    ∧ (∀ (stored : Option ProviderHealth) (providerId : String) (tRead tWrite : ℤ),
      (getHealthStatus stored providerId tRead).state = CircuitState.CLOSED →
      recordFailure stored providerId tRead tWrite =
        { providerId := providerId,
          state := if (getHealthStatus stored providerId tRead).failureCount + 1 ≥
                      FAILURE_THRESHOLD
                   then CircuitState.OPEN else CircuitState.CLOSED,
          failureCount := (getHealthStatus stored providerId tRead).failureCount + 1,
          lastAttempt := tWrite })
    ∧ (∀ (stored : Option ProviderHealth) (providerId : String) (tRead tWrite : ℤ),
      (getHealthStatus stored providerId tRead).state = CircuitState.HALF_OPEN →
      (recordFailure stored providerId tRead tWrite).state = CircuitState.OPEN ∧
      (recordFailure stored providerId tRead tWrite).lastAttempt = tWrite)
    ∧ (∀ (providerId : String) (r1 w1 r2 w2 r3 w3 : ℤ),
      recordFailure none providerId r1 w1 =
        { providerId := providerId, state := CircuitState.CLOSED, failureCount := 1,
          lastAttempt := w1 }
      ∧ recordFailure (some (recordFailure none providerId r1 w1)) providerId r2 w2 =
        { providerId := providerId, state := CircuitState.CLOSED, failureCount := 2,
          lastAttempt := w2 }
      ∧ recordFailure
          (some (recordFailure (some (recordFailure none providerId r1 w1)) providerId r2 w2))
          providerId r3 w3 =
        { providerId := providerId, state := CircuitState.OPEN, failureCount := 3,
          lastAttempt := w3 }) := by
  refine ⟨fun providerId now => rfl, ?_, ?_, ?_⟩
  · intro stored providerId tRead tWrite h
    simp only [recordFailure, h]
    simp
  · intro stored providerId tRead tWrite h
    simp only [recordFailure, h]
    simp
  · intro providerId r1 w1 r2 w2 r3 w3
    refine ⟨?_, ?_, ?_⟩ <;>
      simp [recordFailure, getHealthStatus, FAILURE_THRESHOLD]

/-- Witness for C1 at concrete inputs: a success write, a failure from a
HALF_OPEN view (stored OPEN, read 70000ms later), and the third failure from
CLOSED/2 opening the circuit. -/
theorem circuit_breaker_record_transitions_witness :
    recordSuccess "p" 5 =
      { providerId := "p", state := CircuitState.CLOSED, failureCount := 0, lastAttempt := 5 }
    ∧ (recordFailure
         (some { providerId := "p", state := CircuitState.OPEN, failureCount := 3,
                 lastAttempt := 0 }) "p" 70000 70001).state = CircuitState.OPEN
    ∧ recordFailure
        (some { providerId := "p", state := CircuitState.CLOSED, failureCount := 2,
                lastAttempt := 0 }) "p" 10 11 =
      { providerId := "p", state := CircuitState.OPEN, failureCount := 3, lastAttempt := 11 } :=
  ⟨circuit_breaker_record_transitions.1 "p" 5,
   (circuit_breaker_record_transitions.2.2.1 _ "p" 70000 70001 (by decide)).1,
   (circuit_breaker_record_transitions.2.1 _ "p" 10 11 (by decide)).trans (by decide)⟩

/-- C8: For a stored OPEN record, a health read strictly more than
`OPEN_TIMEOUT_MS` after `lastAttempt` returns a HALF_OPEN view and leaves
the stored record untouched; a read at or before the timeout still reports
OPEN (also leaving the store untouched). -/
theorem health_read_half_open_view :
    ∀ (h : ProviderHealth) (providerId : String) (now : ℤ),
      h.state = CircuitState.OPEN →
      (now - h.lastAttempt > OPEN_TIMEOUT_MS →
        getHealthRead (some h) providerId now =
          ({ h with state := CircuitState.HALF_OPEN }, some h))
      ∧ (now - h.lastAttempt ≤ OPEN_TIMEOUT_MS →
        getHealthRead (some h) providerId now = (h, some h)) := by
  intro h providerId now hOpen
  constructor
  · intro hElapsed
    simp [getHealthRead, getHealthStatus, hOpen, hElapsed]
  · intro hElapsed
    have : ¬(now - h.lastAttempt > OPEN_TIMEOUT_MS) := by omega
    simp [getHealthRead, getHealthStatus, hOpen, this]

/-- Witness for C8: a record opened at time 0 read at 60001ms is viewed
HALF_OPEN, read at 60000ms is still OPEN; the store is unchanged both times. -/
theorem health_read_half_open_view_witness :
    getHealthRead
        (some { providerId := "p", state := CircuitState.OPEN, failureCount := 3,
                lastAttempt := 0 }) "p" 60001 =
      ({ providerId := "p", state := CircuitState.HALF_OPEN, failureCount := 3,
         lastAttempt := 0 },
       some { providerId := "p", state := CircuitState.OPEN, failureCount := 3,
              lastAttempt := 0 })
    ∧ getHealthRead
        (some { providerId := "p", state := CircuitState.OPEN, failureCount := 3,
                lastAttempt := 0 }) "p" 60000 =
      ({ providerId := "p", state := CircuitState.OPEN, failureCount := 3, lastAttempt := 0 },
       some { providerId := "p", state := CircuitState.OPEN, failureCount := 3,
              lastAttempt := 0 }) :=
  ⟨(health_read_half_open_view _ "p" 60001 rfl).1 (by decide),
   (health_read_half_open_view _ "p" 60000 rfl).2 (by decide)⟩

/-- C2: When the health read reports OPEN, `call` returns `ok = false` with
the error `"Circuit breaker is open for <id>. Temporarily unavailable."`
(which contains `"Circuit breaker is open"` and the provider id), makes no
HTTP attempt, sleeps for no back-off, writes nothing to the health tracker,
and does not fetch the secrets. -/
theorem adapter_call_circuit_open_fails_fast :
    ∀ (spec : ProviderSpec) (env : CallEnv) (prompt : String)
      (extra : List (String × String)),
      (getHealthStatus env.healthStore spec.id env.healthReadTime).state =
        CircuitState.OPEN →
      buildAdapterCall spec env prompt extra =
        ({ providerId := spec.id, raw := none, ok := false, parsed := none,
           error := some ("Circuit breaker is open for " ++ spec.id ++
             ". Temporarily unavailable.") },
         { httpAttempts := 0, sleepsMs := [], trackerEvents := [], secretsFetched := false,
           requestHeaders := [], requestBodyText := "" }) := by
  intro spec env prompt extra h
  simp [buildAdapterCall, h]

/-- Witness for C2: the concrete OPEN environment. -/
theorem adapter_call_circuit_open_fails_fast_witness :
    buildAdapterCall specOpen envCircuitOpen "analyse BTCUSDT" [] =
      ({ providerId := "prov-c", raw := none, ok := false, parsed := none,
         error := some "Circuit breaker is open for prov-c. Temporarily unavailable." },
       { httpAttempts := 0, sleepsMs := [], trackerEvents := [], secretsFetched := false,
         requestHeaders := [], requestBodyText := "" }) :=
  adapter_call_circuit_open_fails_fast specOpen envCircuitOpen "analyse BTCUSDT" [] (by decide)

/-- C4: The WEIGHTED aggregation scenario.  For the three parsed responses
`{BUY, 80, 100, sl 95, tp 110}`, `{BUY, 60, 102}`, `{SELL, 90, 98}` the BUY
group scores `2 * 70 = 140` against SELL's `1 * 90 = 90`, so the final
signal is BUY with price `avg(100,102) = 101`, confidence `round(70) = 70`,
stopLoss `95` (its only contributor), takeProfit `110`, and
riskRewardRatio `round(|110-101| / |101-95|, 2) = 1.5`. -/
theorem aggregation_weighted_scenario :
    ((groupItems [respBuy80, respBuy60, respSell90] SignalType.BUY).length : ℚ) *
        groupAvgConf [respBuy80, respBuy60, respSell90] SignalType.BUY = 140
    ∧ ((groupItems [respBuy80, respBuy60, respSell90] SignalType.SELL).length : ℚ) *
        groupAvgConf [respBuy80, respBuy60, respSell90] SignalType.SELL = 90
    ∧ (140 : ℚ) > 90
    ∧ generateFinalSignal "BTCUSDT" [respBuy80, respBuy60, respSell90]
        AggregationMode.WEIGHTED none "sig-1" 0 =
      some { id := "sig-1", symbol := "BTCUSDT", type := SignalType.BUY, confidence := 70,
             price := 101, timestamp := 0, strategy := some "dynamic-llm-consensus",
             riskMetrics := { stopLoss := 95, takeProfit := 110, riskRewardRatio := 3 / 2,
                              positionSizePercent := 2 },
             reasoning := some "No reasoning provided.\n---\nNo reasoning provided.",
             status := some "NEW" } := by
  have hBS : SignalType.BUY ≠ SignalType.SELL := by decide
  have hSB : SignalType.SELL ≠ SignalType.BUY := by decide
  refine ⟨?_, ?_, by norm_num, ?_⟩
  · simp +decide [groupItems, groupAvgConf, qAvg, respType, respConf, respBuy80, respBuy60,
      respSell90, List.filter]
    norm_num
  · simp +decide [groupItems, groupAvgConf, qAvg, respType, respConf, respBuy80, respBuy60,
      respSell90, List.filter]
  · simp [generateFinalSignal, selectWinner, keysInOrder, groupItems, respType,
      respBuy80, respBuy60, respSell90, List.filter_cons, List.filterMap_cons, hBS, hSB]
    norm_num [argmaxFirst, argmaxFirstGo, groupAvgConf, groupItems, qAvg, respConf,
      respType, computeRiskReward, jsRound2, jsRound, reasoningOf, String.intercalate,
      List.filter_cons, Int.floor_eq_iff, hBS, hSB]
    norm_num [respConf, jsRound2, jsRound, Int.floor_eq_iff, String.intercalate,
      reasoningOf, hBS, hSB, List.filterMap_cons, List.sum_cons, List.sum_nil]
    simp
    refine ⟨?_, ?_⟩
    · norm_num [Int.floor_eq_iff]
    · decide

/-- Counterexample to C7 as stated: with one contributor supplying
`price 100` and `stopLoss 95` and nobody supplying `takeProfit`, the
assembled `takeProfit` is `0`, yet the final `riskRewardRatio` is
`round(|0-100| / |100-95|, 2) = 20`, not `0`: the code never tests
`takeProfit` for zero. -/
theorem risk_reward_zero_takeprofit_cex :
    (generateFinalSignal "S" [respNoTp] AggregationMode.WEIGHTED none "i" 0).map
        (fun f => (f.riskMetrics.takeProfit, f.riskMetrics.riskRewardRatio)) =
      some ((0 : ℚ), (20 : ℚ))
    ∧ (20 : ℚ) ≠ 0 := by
  refine ⟨?_, by norm_num⟩
  simp [generateFinalSignal, selectWinner, keysInOrder, groupItems, respType, respNoTp,
    List.filter_cons, List.filterMap_cons]
  norm_num [argmaxFirst, argmaxFirstGo, groupAvgConf, groupItems, qAvg, respConf, respType,
    computeRiskReward, jsRound2, jsRound, Int.floor_eq_iff, List.filter_cons]
  simp [List.filterMap_cons]
  norm_num [jsRound2, jsRound, Int.floor_eq_iff]

/-- C7 amended: the final `riskRewardRatio` equals
`round(|takeProfit - price| / |price - stopLoss|, 2)` whenever `price` and
`stopLoss` are non-zero and distinct — regardless of whether `takeProfit`
is zero — and equals `0` when `price` is zero, `stopLoss` is zero, or
`price = stopLoss`. -/
theorem risk_reward_formula :
    ∀ price stopLoss takeProfit : ℚ,
      (price ≠ 0 → stopLoss ≠ 0 → price ≠ stopLoss →
        computeRiskReward price stopLoss takeProfit =
          jsRound2 (|takeProfit - price| / |price - stopLoss|))
      ∧ (price = 0 ∨ stopLoss = 0 ∨ price = stopLoss →
        computeRiskReward price stopLoss takeProfit = 0) := by
  intro price stopLoss takeProfit
  constructor
  · intro hp hs hps
    have hrisk : |price - stopLoss| > 0 := abs_pos.mpr (sub_ne_zero.mpr hps)
    simp [computeRiskReward, hp, hs, hrisk]
  · intro h
    rcases h with h | h | h
    · simp [computeRiskReward, h]
    · simp [computeRiskReward, h]
    · by_cases hp : price = 0
      · simp [computeRiskReward, hp]
      · by_cases hs : stopLoss = 0
        · simp [computeRiskReward, hs]
        · have hrisk : ¬(|price - stopLoss| > 0) := by simp [h]
          simp [computeRiskReward, hp, hs, hrisk, h]

/-- Witness for C7 (amended) at concrete inputs: the scenario values give
`1.5`, and a zero price gives `0`. -/
theorem risk_reward_formula_witness :
    computeRiskReward 101 95 110 = 3 / 2 ∧ computeRiskReward 0 95 110 = 0 :=
  ⟨((risk_reward_formula 101 95 110).1 (by norm_num) (by norm_num) (by norm_num)).trans
      (by norm_num [jsRound2, jsRound, Int.floor_eq_iff]),
   (risk_reward_formula 0 95 110).2 (Or.inl rfl)⟩

/-- On a non-OPEN health view with a successful first HTTP attempt, `call`
is one attempt, no sleeps, and the `processRaw` outcome. -/
theorem buildAdapterCall_first_ok (spec : ProviderSpec) (env : CallEnv) (prompt : String)
    (extra : List (String × String)) (raw : Json)
    (hO : (getHealthStatus env.healthStore spec.id env.healthReadTime).state ≠
      CircuitState.OPEN)
    (h0 : env.attemptResult 0 = Except.ok raw) :
    (buildAdapterCall spec env prompt extra).1 = (processRaw spec.id raw).1
    ∧ (buildAdapterCall spec env prompt extra).2.httpAttempts = 1
    ∧ (buildAdapterCall spec env prompt extra).2.sleepsMs = []
    ∧ (buildAdapterCall spec env prompt extra).2.trackerEvents = (processRaw spec.id raw).2 := by
  simp [buildAdapterCall, hO, adapterCallLoop, h0]

/-- When every remaining attempt fails in transport, the fetch loop makes
`fuel` attempts, sleeps `200 * 2 ^ (attempt + 1)` after each failed attempt
that leaves another attempt, records one tracker failure, and surfaces the
last error. -/
theorem adapterCallLoop_all_fail (pid : String) (retries : ℕ)
    (f : ℕ → Except String Json) (eLast : String) (hlast : f retries = Except.error eLast) :
    ∀ (fuel attempt : ℕ) (lastErr : Option String),
      attempt + fuel = retries + 1 →
      (fuel = 0 → lastErr = some eLast) →
      (∀ i, attempt ≤ i → i ≤ retries → ∃ e, f i = Except.error e) →
      adapterCallLoop pid retries f fuel attempt lastErr =
        ({ providerId := pid, raw := none, ok := false, parsed := none,
           error := some eLast },
         (fuel, (List.range fuel.pred).map (fun k => 200 * 2 ^ (attempt + k + 1)),
          [TrackerEvent.failure])) := by
  intro fuel
  induction fuel with
  | zero =>
    intro attempt lastErr hcount h0 hall
    have : lastErr = some eLast := h0 rfl
    subst this
    simp [adapterCallLoop, stringifyLastErr]
  | succ fuel ih =>
    intro attempt lastErr hcount h0 hall
    obtain ⟨e, he⟩ := hall attempt (le_refl _) (by omega)
    have hrec := ih (attempt + 1) (some e)
      (by omega)
      (by
        intro hf0
        have hattempt : attempt = retries := by omega
        subst hattempt
        rw [hlast] at he
        cases he
        rfl)
      (fun i hi1 hi2 => hall i (by omega) hi2)
    simp only [adapterCallLoop, he, hrec]
    by_cases hle : attempt + 1 ≤ retries
    · cases fuel with
      | zero => exact absurd hle (by omega)
      | succ g =>
        simp only [hle, if_pos, Prod.mk.injEq, true_and, Nat.pred_succ]
        constructor
        · rw [List.range_succ_eq_map]
          simp only [List.map_cons, List.map_map, List.singleton_append, List.cons.injEq]
          constructor
          · ring_nf
          · apply List.map_congr_left
            intro k hk
            simp [Function.comp]
            ring_nf
        · trivial
    · have hfuel0 : fuel = 0 := by omega
      subst hfuel0
      simp [hle]

/-- Counterexample to C5 as stated: with `maxRetries = 1` and both attempts
failing, the single back-off sleep is `200 * 2^1 = 400` ms, not
`200 * 2^0 = 200` ms: the source increments `attempt` before computing the
sleep, so the sleep after the failed zero-based attempt `a` is
`200 * 2^(a+1)`. -/
theorem backoff_first_sleep_cex :
    (buildAdapterCall specRetryOne envAllFail "p" []).2.sleepsMs = [400]
    ∧ (buildAdapterCall specRetryOne envAllFail "p" []).2.sleepsMs ≠ [200] := by
  constructor
  · decide
  · decide

/-- C5 amended: on an adapter call whose health view is not OPEN and whose
every HTTP attempt fails in transport, the adapter makes `maxRetries + 1`
attempts in total, sleeping `200ms * 2^(attempt+1)` after each failed
zero-based attempt that leaves a retry (so the sleeps are
`400, 800, ...`), then records a failure on the health tracker and returns
`ok = false` carrying the last transport error stringified. -/
theorem backoff_exhausted_retries :
    ∀ (spec : ProviderSpec) (env : CallEnv) (prompt : String)
      (extra : List (String × String)) (eLast : String),
      (getHealthStatus env.healthStore spec.id env.healthReadTime).state ≠
        CircuitState.OPEN →
      (∀ i, i ≤ spec.maxRetries.getD 1 → ∃ e, env.attemptResult i = Except.error e) →
      env.attemptResult (spec.maxRetries.getD 1) = Except.error eLast →
      (buildAdapterCall spec env prompt extra).1 =
        { providerId := spec.id, raw := none, ok := false, parsed := none,
          error := some eLast }
      ∧ (buildAdapterCall spec env prompt extra).2.httpAttempts =
          spec.maxRetries.getD 1 + 1
      ∧ (buildAdapterCall spec env prompt extra).2.sleepsMs =
          (List.range (spec.maxRetries.getD 1)).map (fun k => 200 * 2 ^ (k + 1))
      ∧ (buildAdapterCall spec env prompt extra).2.trackerEvents =
          [TrackerEvent.failure] := by
  intro spec env prompt extra eLast hO hall hlast
  have hloop := adapterCallLoop_all_fail spec.id (spec.maxRetries.getD 1)
    env.attemptResult eLast hlast (spec.maxRetries.getD 1 + 1) 0 none
    (by omega) (by omega) (fun i _ hi2 => hall i hi2)
  simp only [Nat.pred_succ] at hloop
  simp [buildAdapterCall, hO, hloop]

/-- Witness for C5 (amended): the all-fail environment with one retry makes
two attempts, sleeps 400ms once, records a failure, and surfaces "boom". -/
theorem backoff_exhausted_retries_witness :
    (buildAdapterCall specRetryOne envAllFail "p" []).1 =
      { providerId := "prov-b", raw := none, ok := false, parsed := none,
        error := some "boom" }
    ∧ (buildAdapterCall specRetryOne envAllFail "p" []).2.httpAttempts = 2
    ∧ (buildAdapterCall specRetryOne envAllFail "p" []).2.sleepsMs = [400]
    ∧ (buildAdapterCall specRetryOne envAllFail "p" []).2.trackerEvents =
        [TrackerEvent.failure] := by
  have h := backoff_exhausted_retries specRetryOne envAllFail "p" [] "boom"
    (by decide) (fun i _ => ⟨"boom", rfl⟩) rfl
  refine ⟨h.1, ?_, ?_, h.2.2.2⟩
  · exact h.2.1
  · exact h.2.2.1.trans (by decide)

/-- Counterexample to C3 as stated: on a round-trip whose text is the JSON
object `{"confidence": 150}` (which fails schema validation), the adapter
returns the distinct error `"Invalid response schema"` without retrying —
but it records NOTHING on the provider's health tracker, unlike the
no-JSON-found case: the schema-invalid branch returns before any
`recordFailure`. -/
theorem schema_invalid_records_no_failure_cex :
    (buildAdapterCall specBasic envSchemaInvalid "p" []).1.error =
      some "Invalid response schema"
    ∧ (buildAdapterCall specBasic envSchemaInvalid "p" []).1.ok = false
    ∧ (buildAdapterCall specBasic envSchemaInvalid "p" []).2.httpAttempts = 1
    ∧ (buildAdapterCall specBasic envSchemaInvalid "p" []).2.trackerEvents = []
    ∧ TrackerEvent.failure ∉ (buildAdapterCall specBasic envSchemaInvalid "p" []).2.trackerEvents := by
  refine ⟨by decide, by decide, by decide, by decide, by decide⟩

/-- C3 amended: when the HTTP round-trip succeeds and the extracted text's
brace block parses as JSON but fails `ParsedSignalSchema` validation, the
adapter returns `ok = false` with the distinct error
`"Invalid response schema"`, makes no further attempt and no back-off
sleep — and, unlike the no-JSON-found case, performs NO health-tracker
write (the failure is not recorded). -/
theorem schema_invalid_response_behavior :
    ∀ (spec : ProviderSpec) (env : CallEnv) (prompt : String)
      (extra : List (String × String)) (raw : Json) (t sub : String) (j : Json),
      (getHealthStatus env.healthStore spec.id env.healthReadTime).state ≠
        CircuitState.OPEN →
      env.attemptResult 0 = Except.ok raw →
      extractTextFromObject raw = some t →
      t ≠ "" →
      braceMatch t = some sub →
      jsonParse sub = some j →
      parsedSignalSafeParse j = none →
      (buildAdapterCall spec env prompt extra).1 =
        { providerId := spec.id, raw := some raw, ok := false, parsed := none,
          error := some "Invalid response schema" }
      ∧ (buildAdapterCall spec env prompt extra).2.httpAttempts = 1
      ∧ (buildAdapterCall spec env prompt extra).2.sleepsMs = []
      ∧ (buildAdapterCall spec env prompt extra).2.trackerEvents = [] := by
  intro spec env prompt extra raw t sub j hO h0 hx ht hb hj hs
  have h := buildAdapterCall_first_ok spec env prompt extra raw hO h0
  have hp : processRaw spec.id raw =
      ({ providerId := spec.id, raw := some raw, ok := false, parsed := none,
         error := some "Invalid response schema" }, []) := by
    simp [processRaw, hx, ht, hb, hj, hs]
  exact ⟨h.1.trans (by rw [hp]), h.2.1, h.2.2.1, h.2.2.2.trans (by rw [hp])⟩

/-- Witness for C3 (amended) at the concrete schema-invalid environment. -/
theorem schema_invalid_response_behavior_witness :
    (buildAdapterCall specBasic envSchemaInvalid "p" []).1 =
      { providerId := "prov-a",
        raw := some (Json.str "\x7b\"confidence\": 150\x7d"), ok := false,
        parsed := none, error := some "Invalid response schema" }
    ∧ (buildAdapterCall specBasic envSchemaInvalid "p" []).2.trackerEvents = [] := by
  have h := schema_invalid_response_behavior specBasic envSchemaInvalid "p" []
    (Json.str "\x7b\"confidence\": 150\x7d") "\x7b\"confidence\": 150\x7d"
    "\x7b\"confidence\": 150\x7d" (Json.obj [("confidence", Json.num 150)])
    (by decide) rfl rfl (by decide) rfl rfl rfl
  exact ⟨h.1, h.2.2.2⟩

/-- C10: when the extracted text's brace block parses as the empty JSON
object `{}`, schema validation succeeds vacuously (every field of
`ParsedSignalSchema` is optional), so the adapter returns `ok = true` with
an empty partial signal and records a success on the provider's health
tracker. -/
theorem empty_object_counts_as_success :
    ∀ (spec : ProviderSpec) (env : CallEnv) (prompt : String)
      (extra : List (String × String)) (raw : Json) (t sub : String),
      (getHealthStatus env.healthStore spec.id env.healthReadTime).state ≠
        CircuitState.OPEN →
      env.attemptResult 0 = Except.ok raw →
      extractTextFromObject raw = some t →
      t ≠ "" →
      braceMatch t = some sub →
      jsonParse sub = some (Json.obj []) →
      (buildAdapterCall spec env prompt extra).1 =
        { providerId := spec.id, raw := some raw, ok := true,
          parsed := some { type := none, confidence := none, price := none,
                           stopLoss := none, takeProfit := none, reasoning := none },
          error := none }
      ∧ (buildAdapterCall spec env prompt extra).2.trackerEvents =
          [TrackerEvent.success] := by
  intro spec env prompt extra raw t sub hO h0 hx ht hb hj
  have h := buildAdapterCall_first_ok spec env prompt extra raw hO h0
  have hp : processRaw spec.id raw =
      ({ providerId := spec.id, raw := some raw, ok := true,
         parsed := some { type := none, confidence := none, price := none,
                          stopLoss := none, takeProfit := none, reasoning := none },
         error := none }, [TrackerEvent.success]) := by
    simp [processRaw, hx, ht, hb, hj, parsedSignalSafeParse, objGetLast, checkOptionalField]
  exact ⟨h.1.trans (by rw [hp]), h.2.2.2.trans (by rw [hp])⟩

/-- Witness for C10 at the concrete empty-object environment. -/
theorem empty_object_counts_as_success_witness :
    (buildAdapterCall specBasic envEmptyObject "p" []).1 =
      { providerId := "prov-a", raw := some (Json.str "\x7b\x7d"), ok := true,
        parsed := some { type := none, confidence := none, price := none,
                         stopLoss := none, takeProfit := none, reasoning := none },
        error := none }
    ∧ (buildAdapterCall specBasic envEmptyObject "p" []).2.trackerEvents =
        [TrackerEvent.success] :=
  empty_object_counts_as_success specBasic envEmptyObject "p" []
    (Json.str "\x7b\x7d") "\x7b\x7d" "\x7b\x7d" (by decide) rfl rfl (by decide) rfl rfl

/-- A safe key (no closing brace, no line terminator) followed by two closing
braces is captured exactly by the lazy scanner. -/
theorem splitKeyGo_exact :
    ∀ (key2 acc post : List Char),
      (∀ c ∈ key2, c ≠ '}' ∧ isLineTerminator c = false) →
      splitKeyGo acc (key2 ++ '}' :: '}' :: post) = some (acc.reverse ++ key2, post) := by
  intro key2
  induction key2 with
  | nil =>
    intro acc post h
    simp [splitKeyGo]
  | cons c k ih =>
    intro acc post h
    have hc := h c (List.mem_cons_self c k)
    rw [List.cons_append, splitKeyGo, if_neg (by simp [hc.1]), if_neg (by simp [hc.2])]
    rw [ih (c :: acc) post (fun d hd => h d (List.mem_cons_of_mem c hd))]
    simp

/-- `splitKey` on `key ++ \x7d\x7d ++ post` captures exactly `key`. -/
theorem splitKey_exact :
    ∀ (key post : List Char), key ≠ [] →
      (∀ c ∈ key, c ≠ '}' ∧ isLineTerminator c = false) →
      splitKey (key ++ '}' :: '}' :: post) = some (key, post) := by
  intro key post hk hkey
  cases key with
  | nil => exact absurd rfl hk
  | cons c k =>
    have hc := hkey c (List.mem_cons_self c k)
    rw [List.cons_append, splitKey, if_neg (by simp [hc.2])]
    rw [splitKeyGo_exact k [c] post (fun d hd => hkey d (List.mem_cons_of_mem c hd))]
    simp

/-- Length-bounded form: a scan that finds no template token copies its input. -/
theorem renderChars_no_token_bounded (vars : List (String × String)) :
    ∀ (n : ℕ) (cs : List Char), cs.length ≤ n → hasTemplateToken cs = false →
      renderChars vars cs = cs := by
  intro n
  induction n with
  | zero =>
    intro cs hlen h
    have hnil : cs = [] := by
      cases cs
      · rfl
      · simp at hlen
    subst hnil
    simp [renderChars]
  | succ n ih =>
    intro cs hlen h
    cases cs with
    | nil => simp [renderChars]
    | cons c rest =>
      rw [hasTemplateToken] at h
      by_cases hc : c = '{' ∧ rest.head? = some '{'
      · rw [if_pos hc] at h
        simp only [Bool.or_eq_false_iff] at h
        rw [renderChars, if_pos hc]
        split
        · rename_i key rest2 h2
          exfalso
          rw [h2] at h
          simp at h
        · exact congrArg (c :: ·) (ih rest (by simp at hlen; omega) h.2)
      · rw [if_neg hc] at h
        rw [renderChars, if_neg hc]
        exact congrArg (c :: ·) (ih rest (by simp at hlen; omega) h)

/-- A scan that finds no template token copies its input verbatim. -/
theorem renderChars_no_token (vars : List (String × String)) (cs : List Char)
    (h : hasTemplateToken cs = false) : renderChars vars cs = cs :=
  renderChars_no_token_bounded vars cs.length cs (le_refl _) h

/-- Substitution: a placeholder preceded by brace-free text is replaced by the
looked-up value and scanning continues after it. -/
theorem renderChars_subst (vars : List (String × String)) :
    ∀ (pre key post : List Char),
      (∀ c ∈ pre, c ≠ '{') → key ≠ [] →
      (∀ c ∈ key, c ≠ '}' ∧ isLineTerminator c = false) →
      renderChars vars (pre ++ '{' :: '{' :: (key ++ '}' :: '}' :: post)) =
        pre ++ (getVar vars (String.mk (jsTrim key))).data ++ renderChars vars post := by
  intro pre
  induction pre with
  | nil =>
    intro key post hpre hk hkey
    simp only [List.nil_append]
    rw [renderChars, if_pos ⟨rfl, rfl⟩]
    have hsk := splitKey_exact key post hk hkey
    split
    · rename_i key2 rest2 h2
      simp only [List.tail_cons] at h2
      rw [hsk] at h2
      cases h2
      simp
    · rename_i h2
      simp only [List.tail_cons] at h2
      rw [hsk] at h2
      cases h2
  | cons p pre ih =>
    intro key post hpre hk hkey
    have hp : p ≠ '{' := hpre p (List.mem_cons_self p pre)
    simp only [List.cons_append]
    rw [renderChars, if_neg (by simp [hp])]
    rw [ih key post (fun c hcm => hpre c (List.mem_cons_of_mem p hcm)) hk hkey]

/-- C9: `renderTemplate` never throws (it is a total function by
construction); input containing no `\x7b\x7bkey\x7d\x7d` placeholder passes
through verbatim, hence rendering is idempotent on such input; every
occurrence of `\x7b\x7bkey\x7d\x7d` (key free of closing braces and line
terminators, preceded by brace-free text) is replaced by the string value of
`vars[key.trim()]`; and an absent key resolves to the empty string. -/
theorem render_template_contract :
    (∀ (vars : List (String × String)) (s : String),
      hasTemplateToken s.data = false → renderTemplate s vars = s)
    ∧ (∀ (vars : List (String × String)) (s : String),
      hasTemplateToken s.data = false →
      renderTemplate (renderTemplate s vars) vars = renderTemplate s vars)
    ∧ (∀ (vars : List (String × String)) (pre key post : List Char),
      (∀ c ∈ pre, c ≠ '{') → key ≠ [] →
      (∀ c ∈ key, c ≠ '}' ∧ isLineTerminator c = false) →
      renderChars vars (pre ++ '{' :: '{' :: (key ++ '}' :: '}' :: post)) =
        pre ++ (getVar vars (String.mk (jsTrim key))).data ++ renderChars vars post)
    ∧ (∀ (vars : List (String × String)) (k : String),
      lookupVar vars k = none → getVar vars k = "") := by
  have hmk : ∀ (vars : List (String × String)) (s : String),
      hasTemplateToken s.data = false → renderTemplate s vars = s := by
    intro vars s h
    rw [renderTemplate, renderChars_no_token vars s.data h]
  refine ⟨hmk, ?_, fun vars => renderChars_subst vars, ?_⟩
  · intro vars s h
    rw [hmk vars s h, hmk vars s h]
  · intro vars k h
    rw [getVar, h]
    rfl

/-- Witness for C9: `"Hi \x7b\x7bname\x7d\x7d!"` renders to `"Hi Bob!"`,
placeholder-free text is unchanged, and a missing key gives `""`. -/
theorem render_template_contract_witness :
    renderTemplate "Hi \x7b\x7bname\x7d\x7d!" [("name", "Bob")] = "Hi Bob!"
    ∧ renderTemplate "plain text" [("x", "y")] = "plain text"
    ∧ getVar [("x", "y")] "name" = "" := by
  refine ⟨?_, ?_, ?_⟩
  · have h := render_template_contract.2.2.1 [("name", "Bob")] "Hi ".data "name".data
      "!".data (by decide) (by decide) (by decide)
    have e : ("Hi \x7b\x7bname\x7d\x7d!").data =
        "Hi ".data ++ '{' :: '{' :: ("name".data ++ '}' :: '}' :: "!".data) := by decide
    rw [renderTemplate, e, h, renderChars_no_token [("name", "Bob")] "!".data (by decide)]
    decide
  · exact render_template_contract.1 [("x", "y")] "plain text" (by decide)
  · exact render_template_contract.2.2.2 [("x", "y")] "name" (by decide)

/-- C6: the prototype parser's regex fallback on the prose
`"I recommend SELL. Confidence: 72. Entry: $1,234.50"` (which contains no
JSON candidate) extracts `type = SELL`, `confidence = 72`, and
`price = 1234.50` (`mkRat 2469 2`), rather than a failed response. -/
theorem regex_fallback_prose_scenario :
    parseSignalFromText "I recommend SELL. Confidence: 72. Entry: $1,234.50" =
      some (SrcParsed.fromRegex
        { type := some SignalType.SELL, confidence := some 72,
          price := some (JsNum.val (mkRat 2469 2)), stopLoss := none,
          takeProfit := none }) := rfl
